import Mathlib

/-!
Verification of the configuration-normalization and dispatch slice of a
consensus-node client library.

The development embeds two source functions:

* `Service.Spec` (HTTP client): fetches the chain configuration, decodes a
  raw `map[string]string` payload into typed values via an ordered rule
  chain, patches vendor omissions with fixed defaults, and caches the
  result for the process lifetime.
* `Service.Fork` (multi-backend client): wraps a fork query in an operation
  closure handed to the dispatch engine `doCall`, and post-processes the
  dispatch result.

Byte strings are modelled as `List Nat` (each element a byte value built
from two hex digits); Go's 64-bit integers as `Nat`/`Int` with explicit
range checks where the source performs them.
-/

/-! ## String primitives (Go `strings` package) -/

/-- Go `strings.HasPrefix k pre`. -/
def goHasPrefix (s pre : String) : Bool :=
  pre.data.isPrefixOf s.data

/-- Go `strings.HasSuffix s suf`. -/
def goHasSuffix (s suf : String) : Bool :=
  suf.data.isSuffixOf s.data

/-- Go `strings.TrimPrefix s pre`: removes `pre` if present, else returns `s` unchanged. -/
def goTrimPrefix (s pre : String) : String :=
  if pre.data.isPrefixOf s.data then ⟨s.data.drop pre.data.length⟩ else s

/-! ## Hex decoding (Go `encoding/hex.DecodeString`) -/

/-- Go `hex.fromHexChar`: value of one hexadecimal character, accepting
`0-9`, `a-f` and `A-F`. -/
def fromHexChar (c : Char) : Option Nat :=
  if '0'.toNat ≤ c.toNat ∧ c.toNat ≤ '9'.toNat then some (c.toNat - '0'.toNat)
  else if 'a'.toNat ≤ c.toNat ∧ c.toNat ≤ 'f'.toNat then some (c.toNat - 'a'.toNat + 10)
  else if 'A'.toNat ≤ c.toNat ∧ c.toNat ≤ 'F'.toNat then some (c.toNat - 'A'.toNat + 10)
  else none

/-- Hex decoding over the character list: pairs of hex digits become bytes;
an odd-length or non-hex input is an error (`none`), matching the
`err == nil` test the source performs on `hex.DecodeString`. -/
def hexBytes : List Char → Option (List Nat)
  | [] => some []
  | [_] => none
  | hi :: lo :: rest =>
    match fromHexChar hi, fromHexChar lo, hexBytes rest with
    | some h, some l, some bs => some ((16 * h + l) :: bs)
    | _, _, _ => none

/-- Go `hex.DecodeString`, as used by the source: `none` exactly when the Go
call returns a non-nil error. -/
def hexDecodeString (s : String) : Option (List Nat) :=
  hexBytes s.data

/-! ## Integer parsing (Go `strconv`) -/

/-- Value of one decimal digit. -/
def decDigit (c : Char) : Option Nat :=
  if '0'.toNat ≤ c.toNat ∧ c.toNat ≤ '9'.toNat then some (c.toNat - '0'.toNat)
  else none

/-- Accumulate decimal digits; fails on any non-digit character. -/
def decDigitsAux : Nat → List Char → Option Nat
  | acc, [] => some acc
  | acc, c :: cs =>
    match decDigit c with
    | some d => decDigitsAux (10 * acc + d) cs
    | none => none

/-- Parse a non-empty all-digit character list as a natural number. -/
def parseDecNat : List Char → Option Nat
  | [] => none
  | cs => decDigitsAux 0 cs

/-- Go `strconv.ParseUint(v, 10, 64)`: no sign permitted, value must fit in
64 unsigned bits; `none` exactly when the Go call errors. -/
def parseUint64 (s : String) : Option Nat :=
  match parseDecNat s.data with
  | some n => if n < 2 ^ 64 then some n else none
  | none => none

/-- Go `strconv.ParseInt(v, 10, 64)`: optional single leading sign, value
must fit in a signed 64-bit integer; `none` exactly when the Go call
errors. -/
def parseInt64 (s : String) : Option Int :=
  match s.data with
  | '+' :: cs =>
    match parseDecNat cs with
    | some n => if n ≤ 2 ^ 63 - 1 then some (n : Int) else none
    | none => none
  | '-' :: cs =>
    match parseDecNat cs with
    | some n => if n ≤ 2 ^ 63 then some (-(n : Int)) else none
    | none => none
  | cs =>
    match parseDecNat cs with
    | some n => if n ≤ 2 ^ 63 - 1 then some (n : Int) else none
    | none => none

/-! ## Fixed-length copies and Go arithmetic -/

/-- Semantics of Go's `copy(dst[:], src)` into a fresh zeroed array of
length `n`: the first `min n src.length` bytes come from `src`, the rest
stay zero. -/
def copyFixed (n : Nat) (src : List Nat) : List Nat :=
  src.take n ++ List.replicate (n - src.length) 0

/-- Reinterpret an unsigned 64-bit value as Go's signed `int64` (two's
complement). -/
def int64OfUInt64 (n : Nat) : Int :=
  if n % 2 ^ 64 < 2 ^ 63 then (n % 2 ^ 64 : Int) else (n % 2 ^ 64 : Int) - 2 ^ 64

/-- Go `time.Duration(secs) * time.Second`: nanosecond count as a wrapping
signed 64-bit integer. -/
def goDurationSeconds (secs : Nat) : Int :=
  int64OfUInt64 (secs * 1000000000)

/-! ## Typed configuration values (`Service.Spec` decoding) -/

/-- The typed values a configuration key can be mapped to by the decoding
rules: `phase0.DomainType`, `phase0.Version`, raw bytes, `time.Time` (via
`time.Unix(sec, 0)`, recorded as seconds), `time.Duration` (nanoseconds),
`uint64`, or the raw string. -/
inductive SpecValue where
  | domainType (bytes : List Nat)
  | version (bytes : List Nat)
  | bytes (bs : List Nat)
  | time (seconds : Int)
  | duration (nanos : Int)
  | uint (n : Nat)
  | str (s : String)
  deriving DecidableEq, Repr

/-- Rule 1 — "Handle domains": key prefixed `DOMAIN_`, hex value decodes →
4-byte `DomainType` filled by `copy`. -/
def ruleDomain (k v : String) : Option SpecValue :=
  if goHasPrefix k "DOMAIN_" then
    (hexDecodeString (goTrimPrefix v "0x")).map fun byteVal =>
      .domainType (copyFixed 4 byteVal)
  else none

/-- Rule 2 — "Handle fork versions": key suffixed `_FORK_VERSION`, hex value
decodes → 4-byte `Version` filled by `copy`. -/
def ruleForkVersion (k v : String) : Option SpecValue :=
  if goHasSuffix k "_FORK_VERSION" then
    (hexDecodeString (goTrimPrefix v "0x")).map fun byteVal =>
      .version (copyFixed 4 byteVal)
  else none

/-- Rule 3 — "Handle hex strings": value prefixed `0x`, hex decodes →
variable-length byte slice. -/
def ruleHex (_k v : String) : Option SpecValue :=
  if goHasPrefix v "0x" then
    (hexDecodeString (goTrimPrefix v "0x")).map .bytes
  else none

/-- Rule 4 — "Handle times": key suffixed `_TIME`, value a nonzero signed
64-bit integer → `time.Unix(intVal, 0)`. Zero deliberately falls through. -/
def ruleTime (k v : String) : Option SpecValue :=
  if goHasSuffix k "_TIME" then
    match parseInt64 v with
    | some intVal => if intVal ≠ 0 then some (.time intVal) else none
    | none => none
  else none

/-- Rule 5 — "Handle durations": key prefixed `SECONDS_PER_` or exactly
`GENESIS_DELAY`, value a nonzero unsigned 64-bit integer → duration in
seconds. Zero falls through. -/
def ruleDuration (k v : String) : Option SpecValue :=
  if goHasPrefix k "SECONDS_PER_" ∨ k = "GENESIS_DELAY" then
    match parseUint64 v with
    | some intVal => if intVal ≠ 0 then some (.duration (goDurationSeconds intVal)) else none
    | none => none
  else none

/-- Rule 6 — literal `"0"` stored as `uint64(0)`. -/
def ruleZero (_k v : String) : Option SpecValue :=
  if v = "0" then some (.uint 0) else none

/-- Rule 7 — "Handle integers": nonzero unsigned 64-bit integer parse. -/
def ruleUint (_k v : String) : Option SpecValue :=
  match parseUint64 v with
  | some intVal => if intVal ≠ 0 then some (.uint intVal) else none
  | none => none

/-- Per-key decoding: the source's chain of `if`/`continue` blocks, first
matching rule wins, with rule 8's final fallback "Assume string". -/
def decodeKV (k v : String) : SpecValue :=
  (ruleDomain k v <|> ruleForkVersion k v <|> ruleHex k v <|> ruleTime k v <|>
    ruleDuration k v <|> ruleZero k v <|> ruleUint k v).getD (.str v)

/-- The decoding loop `for k, v := range specJSON.Data`: every payload entry
is decoded; association-list model of the Go map (keys unique). -/
def decodeData (data : List (String × String)) : List (String × SpecValue) :=
  data.map fun kv => (kv.1, decodeKV kv.1 kv.2)

/-- One patch step: `if _, exists := config[k]; !exists { config[k] = v }`. -/
def patchEntry (config : List (String × SpecValue)) (k : String) (v : SpecValue) :
    List (String × SpecValue) :=
  if (config.lookup k).isSome then config else config ++ [(k, v)]

/-- The Lighthouse-compatibility patch block: five defaults injected only
when the key is absent, in source order. -/
def patchConfig (config : List (String × SpecValue)) : List (String × SpecValue) :=
  patchEntry (patchEntry (patchEntry (patchEntry (patchEntry config
    "DOMAIN_CONTRIBUTION_AND_PROOF" (.domainType [0x09, 0x00, 0x00, 0x00]))
    "DOMAIN_SYNC_COMMITTEE" (.domainType [0x07, 0x00, 0x00, 0x00]))
    "DOMAIN_SYNC_COMMITTEE_SELECTION_PROOF" (.domainType [0x08, 0x00, 0x00, 0x00]))
    "SYNC_COMMITTEE_SUBNET_COUNT" (.uint 4))
    "TARGET_AGGREGATORS_PER_SYNC_SUBCOMMITTEE" (.uint 16)

/-- Full decode of one fetched payload: per-key decoding followed by the
patch block, as in the body of `Service.Spec`. -/
def specConfig (data : List (String × String)) : List (String × SpecValue) :=
  patchConfig (decodeData data)

/-- A key/value pair on which none of the seven decoding rules fires, so
that only the final "Assume string" fallback applies. -/
def noRuleMatches (k v : String) : Prop :=
  ruleDomain k v = none ∧ ruleForkVersion k v = none ∧ ruleHex k v = none ∧
  ruleTime k v = none ∧ ruleDuration k v = none ∧ ruleZero k v = none ∧
  ruleUint k v = none

/-! ## The cached `Service.Spec` call (HTTP client) -/

/-- Errors `Service.Spec` can return, one per early-return in the source:
`errors.Wrap(err, "failed to request spec")`, `errors.New("failed to obtain
spec")`, `errors.Wrap(err, "failed to parse spec")`. -/
inductive SpecErr where
  | requestFailed (underlying : String)
  | obtainFailed
  | parseFailed (underlying : String)
  deriving DecidableEq, Repr

/-- Outcome of the fetch-and-parse phase external to the decoding loop:
`s.get` errors, `s.get` yields a nil body, the JSON decoder errors, or a
payload map is obtained. -/
inductive FetchOutcome where
  | getError (e : String)
  | nilBody
  | decodeJSONError (e : String)
  | ok (data : List (String × String))
  deriving DecidableEq, Repr

/-- The HTTP `Service`'s state relevant to `Spec`: the cached configuration
(`s.spec`, a nil map until first success). The mutex collapses in this
sequential model. -/
structure HTTPService where
  spec : Option (List (String × SpecValue))
  deriving DecidableEq, Repr

/-- One call to `Service.Spec`, given the outcome the transport would
produce if consulted. Returns the updated service state, the call's result,
and whether a fetch/decode was actually performed (`false` when the cached
value was returned). -/
def HTTPService.Spec (s : HTTPService) (fetch : FetchOutcome) :
    HTTPService × Except SpecErr (List (String × SpecValue)) × Bool :=
  match s.spec with
  | some config => (s, .ok config, false)
  | none =>
    match fetch with
    | .getError e => (s, .error (.requestFailed e), true)
    | .nilBody => (s, .error .obtainFailed, true)
    | .decodeJSONError e => (s, .error (.parseFailed e), true)
    | .ok data =>
      let config := specConfig data
      (⟨some config⟩, .ok config, true)

/-- A sequence of `Spec` calls: the list of (result, fetched?) observations,
threading the service state. -/
def HTTPService.SpecCalls (s : HTTPService) :
    List FetchOutcome → List (Except SpecErr (List (String × SpecValue)) × Bool)
  | [] => []
  | f :: fs =>
    match s.Spec f with
    | (s', r, b) => (r, b) :: s'.SpecCalls fs

/-! ## `Service.Fork` (multi-backend client) -/

/-- `phase0.Fork`. -/
structure ForkData where
  previousVersion : List Nat
  currentVersion : List Nat
  epoch : Nat
  deriving DecidableEq, Repr

/-- Backend errors surfaced to the dispatch engine: a plain backend error,
or the engine's aggregation of every attempted backend's error. -/
inductive GoErr where
  | msg (s : String)
  | aggregated (errs : List GoErr)

/-- Outcome of running Go code that may return a value, return an error, or
panic (e.g. on a failed interface type assertion). -/
inductive GoOutcome (α : Type) where
  | ok (a : α)
  | err (e : GoErr)
  | panicked

/-- A backend handle (`eth2client.Service`). `forkQuery` is `some` exactly
when the dynamic type implements `eth2client.ForkProvider`; the function is
the backend's `Fork` call, returning an error or a possibly-nil pointer. -/
structure Client where
  forkQuery : Option (String → Except GoErr (Option ForkData))

/-- The operation closure `Service.Fork` hands to `doCall`: it performs the
unchecked type assertion `client.(eth2client.ForkProvider)` — a panic when
the handle does not implement the capability — then returns the backend's
error or fork value. -/
def forkOperation (stateID : String) (client : Client) : GoOutcome (Option ForkData) :=
  match client.forkQuery with
  | none => .panicked
  | some query =>
    match query stateID with
    | .error e => .err e
    | .ok fork => .ok fork

/-- Dispatch strategies of the engine. -/
inductive Strategy where
  | passThrough
  | firstSuccess
  deriving DecidableEq, Repr

/-- The multi-backend `Service`: its dispatch strategy and registered
backend handles in registration order. -/
structure MultiService where
  strategy : Strategy
  clients : List Client

/-- Modelled from the spec: the FirstSuccess loop of the dispatch engine
(`doCall` is not among the provided sources). Handles are tried in order;
an error is recorded and the next handle tried; any non-error result —
including an explicit empty one — short-circuits; if every handle errors,
an aggregated failure listing each error in call order is returned. A panic
in the operation propagates. -/
def runFirstSuccess {α : Type} (op : Client → GoOutcome α) :
    List Client → List GoErr → GoOutcome α
  | [], errs => .err (.aggregated errs.reverse)
  | c :: rest, errs =>
    match op c with
    | .ok a => .ok a
    | .err e => runFirstSuccess op rest (e :: errs)
    | .panicked => .panicked

/-- Modelled from the spec: `doCall`, the dispatch engine behind
`Service.Fork` (its body is not among the provided sources). Under
PassThrough exactly one handle is configured and its outcome is returned
unchanged; under FirstSuccess the handles are tried in registration
order. -/
def MultiService.doCall {α : Type} (s : MultiService) (op : Client → GoOutcome α) :
    GoOutcome α :=
  match s.strategy with
  | .passThrough =>
    match s.clients with
    | [c] => op c
    | _ => .err (.msg "not configured with exactly one backend")
  | .firstSuccess => runFirstSuccess op s.clients []

/-- `Service.Fork`: dispatch the fork operation, propagate a dispatch
error, map an explicitly absent result (`res == nil`) to success with a nil
fork, and otherwise return the fork value. -/
def MultiService.Fork (s : MultiService) (stateID : String) : GoOutcome (Option ForkData) :=
  match s.doCall (forkOperation stateID) with
  | .panicked => .panicked
  | .err e => .err e
  | .ok res =>
    match res with
    | none => .ok none
    | some fork => .ok (some fork)

/-! ## Helper lemmas -/

theorem ruleDomain_hex_fail (k v : String)
    (h : hexDecodeString (goTrimPrefix v "0x") = none) : ruleDomain k v = none := by
  unfold ruleDomain
  split <;> simp [h]

theorem ruleForkVersion_hex_fail (k v : String)
    (h : hexDecodeString (goTrimPrefix v "0x") = none) : ruleForkVersion k v = none := by
  unfold ruleForkVersion
  split <;> simp [h]

theorem ruleDomain_hex_ok (k v : String) (bs : List Nat)
    (hk : goHasPrefix k "DOMAIN_" = true)
    (hv : hexDecodeString (goTrimPrefix v "0x") = some bs) :
    ruleDomain k v = some (.domainType (copyFixed 4 bs)) := by
  simp [ruleDomain, hk, hv]

theorem ruleDomain_not_domain_key (k v : String)
    (hk : goHasPrefix k "DOMAIN_" = false) : ruleDomain k v = none := by
  simp [ruleDomain, hk]

theorem ruleForkVersion_hex_ok (k v : String) (bs : List Nat)
    (hk : goHasSuffix k "_FORK_VERSION" = true)
    (hv : hexDecodeString (goTrimPrefix v "0x") = some bs) :
    ruleForkVersion k v = some (.version (copyFixed 4 bs)) := by
  simp [ruleForkVersion, hk, hv]

theorem copyFixed_length (bs : List Nat) : (copyFixed 4 bs).length = 4 := by
  simp [copyFixed]
  omega

/-- Claim C2: every payload key with the `DOMAIN_` prefix whose value (after
stripping an optional `0x`) is valid hex decodes to the 4-byte domain type
that is the left-aligned copy of the decoded bytes, and is never classified
as a plain integer or string. -/
theorem spec_domain_decode (k v : String) (bs : List Nat)
    (hk : goHasPrefix k "DOMAIN_" = true)
    (hv : hexDecodeString (goTrimPrefix v "0x") = some bs) :
    decodeKV k v = SpecValue.domainType (copyFixed 4 bs) ∧
    (copyFixed 4 bs).length = 4 ∧
    copyFixed 4 bs = bs.take 4 ++ List.replicate (4 - bs.length) 0 ∧
    (∀ n, decodeKV k v ≠ SpecValue.uint n) ∧
    (∀ t, decodeKV k v ≠ SpecValue.str t) := by
  have hd : decodeKV k v = SpecValue.domainType (copyFixed 4 bs) := by
    simp [decodeKV, ruleDomain_hex_ok k v bs hk hv]
  refine ⟨hd, copyFixed_length bs, rfl, ?_, ?_⟩
  · intro n h
    rw [hd] at h
    cases h
  · intro t h
    rw [hd] at h
    cases h

theorem spec_domain_decode_witness :
    decodeKV "DOMAIN_X" "0x01020304" = SpecValue.domainType (copyFixed 4 [1, 2, 3, 4]) ∧
    (copyFixed 4 [1, 2, 3, 4]).length = 4 ∧
    copyFixed 4 [1, 2, 3, 4] =
      [1, 2, 3, 4].take 4 ++ List.replicate (4 - [1, 2, 3, 4].length) 0 ∧
    (∀ n, decodeKV "DOMAIN_X" "0x01020304" ≠ SpecValue.uint n) ∧
    (∀ t, decodeKV "DOMAIN_X" "0x01020304" ≠ SpecValue.str t) :=
  spec_domain_decode "DOMAIN_X" "0x01020304" [1, 2, 3, 4] (by decide) (by decide)

/-- Claim C10: when a key matched by the domain-marker or fork-version rule
has a hex value decoding to more than 4 bytes, only the first 4 decoded
bytes are kept (no error); when it decodes to fewer, the remaining bytes of
the fixed-length value are zero. -/
theorem spec_fixed_length_truncate_pad (k v : String) (bs : List Nat)
    (hk : goHasPrefix k "DOMAIN_" = true ∨ goHasSuffix k "_FORK_VERSION" = true)
    (hv : hexDecodeString (goTrimPrefix v "0x") = some bs) :
    (decodeKV k v = SpecValue.domainType (copyFixed 4 bs) ∨
      decodeKV k v = SpecValue.version (copyFixed 4 bs)) ∧
    (4 ≤ bs.length → copyFixed 4 bs = bs.take 4) ∧
    (bs.length ≤ 4 → copyFixed 4 bs = bs ++ List.replicate (4 - bs.length) 0) := by
  refine ⟨?_, ?_, ?_⟩
  · rcases hk with hk | hk
    · exact Or.inl (by simp [decodeKV, ruleDomain_hex_ok k v bs hk hv])
    · cases hd : goHasPrefix k "DOMAIN_" with
      | true => exact Or.inl (by simp [decodeKV, ruleDomain_hex_ok k v bs hd hv])
      | false =>
        refine Or.inr ?_
        simp [decodeKV, ruleDomain_not_domain_key k v hd,
          ruleForkVersion_hex_ok k v bs hk hv]
  · intro h4
    simp [copyFixed, Nat.sub_eq_zero_of_le h4]
  · intro h4
    simp [copyFixed, List.take_of_length_le h4]

theorem spec_fixed_length_truncate_pad_witness :
    (decodeKV "DOMAIN_X" "0x0102030405" =
        SpecValue.domainType (copyFixed 4 [1, 2, 3, 4, 5]) ∨
      decodeKV "DOMAIN_X" "0x0102030405" = SpecValue.version (copyFixed 4 [1, 2, 3, 4, 5])) ∧
    (4 ≤ [1, 2, 3, 4, 5].length → copyFixed 4 [1, 2, 3, 4, 5] = [1, 2, 3, 4, 5].take 4) ∧
    ([1, 2, 3, 4, 5].length ≤ 4 → copyFixed 4 [1, 2, 3, 4, 5] =
      [1, 2, 3, 4, 5] ++ List.replicate (4 - [1, 2, 3, 4, 5].length) 0) :=
  spec_fixed_length_truncate_pad "DOMAIN_X" "0x0102030405" [1, 2, 3, 4, 5]
    (Or.inl (by decide)) (by decide)

/-- Claim C4: for every key suffixed `_TIME`, the value `"0"` decodes to the
unsigned integer 0 (not a time point), while `"100"` decodes to the absolute
time point 100 seconds after the Unix epoch. -/
theorem spec_time_decode (k : String) (hk : goHasSuffix k "_TIME" = true) :
    decodeKV k "0" = SpecValue.uint 0 ∧ decodeKV k "100" = SpecValue.time 100 := by
  constructor
  · have h1 : ruleDomain k "0" = none := ruleDomain_hex_fail k "0" (by decide)
    have h2 : ruleForkVersion k "0" = none := ruleForkVersion_hex_fail k "0" (by decide)
    have h3 : ruleHex k "0" = none := by
      simp [ruleHex, show goHasPrefix "0" "0x" = false from by decide]
    have h4 : ruleTime k "0" = none := by
      simp [ruleTime, hk, show parseInt64 "0" = some 0 from by decide]
    have h5 : ruleDuration k "0" = none := by
      unfold ruleDuration
      split <;> simp [show parseUint64 "0" = some 0 from by decide]
    have h6 : ruleZero k "0" = some (SpecValue.uint 0) := by
      simp [ruleZero]
    simp [decodeKV, h1, h2, h3, h4, h5, h6]
  · have h1 : ruleDomain k "100" = none := ruleDomain_hex_fail k "100" (by decide)
    have h2 : ruleForkVersion k "100" = none := ruleForkVersion_hex_fail k "100" (by decide)
    have h3 : ruleHex k "100" = none := by
      simp [ruleHex, show goHasPrefix "100" "0x" = false from by decide]
    have h4 : ruleTime k "100" = some (SpecValue.time 100) := by
      simp [ruleTime, hk, show parseInt64 "100" = some 100 from by decide]
    simp [decodeKV, h1, h2, h3, h4]

theorem spec_time_decode_witness :
    decodeKV "GENESIS_TIME" "0" = SpecValue.uint 0 ∧
    decodeKV "GENESIS_TIME" "100" = SpecValue.time 100 :=
  spec_time_decode "GENESIS_TIME" (by decide)

theorem lookup_append_eq (l1 l2 : List (String × SpecValue)) (k : String) :
    (l1 ++ l2).lookup k = ((l1.lookup k).orElse fun _ => l2.lookup k) := by
  induction l1 with
  | nil => simp
  | cons e es ih =>
    cases e with
    | mk k' v' =>
      rw [List.cons_append, List.lookup_cons, List.lookup_cons]
      cases h : k == k' with
      | true => simp
      | false => simp [ih]

theorem lookup_decodeData (data : List (String × String)) (k : String) :
    (decodeData data).lookup k = (data.lookup k).map (decodeKV k) := by
  induction data with
  | nil => simp [decodeData]
  | cons e es ih =>
    cases e with
    | mk k' v' =>
      show ((k', decodeKV k' v') :: decodeData es).lookup k = _
      rw [List.lookup_cons, List.lookup_cons]
      cases h : k == k' with
      | true =>
        have : k = k' := by simpa using h
        subst this
        simp
      | false => simpa using ih

theorem lookup_patchEntry_some (config : List (String × SpecValue)) (k0 : String)
    (v0 : SpecValue) (k : String) (w : SpecValue) (h : config.lookup k = some w) :
    (patchEntry config k0 v0).lookup k = some w := by
  unfold patchEntry
  split
  · exact h
  · rw [lookup_append_eq, h]
    rfl

theorem lookup_patchEntry_ne (config : List (String × SpecValue)) (k0 : String)
    (v0 : SpecValue) (k : String) (h : (k == k0) = false) :
    (patchEntry config k0 v0).lookup k = config.lookup k := by
  unfold patchEntry
  split
  · rfl
  · rw [lookup_append_eq]
    cases hc : config.lookup k with
    | some w => rfl
    | none => simp [List.lookup_cons, h]

theorem lookup_patchEntry_self (config : List (String × SpecValue)) (k0 : String)
    (v0 : SpecValue) (h : config.lookup k0 = none) :
    (patchEntry config k0 v0).lookup k0 = some v0 := by
  unfold patchEntry
  rw [h]
  simp [lookup_append_eq, h, List.lookup_cons]

theorem lookup_patchConfig_some (config : List (String × SpecValue)) (k : String)
    (w : SpecValue) (h : config.lookup k = some w) :
    (patchConfig config).lookup k = some w := by
  unfold patchConfig
  exact lookup_patchEntry_some _ _ _ _ _ (lookup_patchEntry_some _ _ _ _ _
    (lookup_patchEntry_some _ _ _ _ _ (lookup_patchEntry_some _ _ _ _ _
      (lookup_patchEntry_some _ _ _ _ _ h))))

/-- Claim C3: the five patch defaults are injected if and only if the
corresponding key is absent from the payload; a key present in the payload
keeps its decoded value and is never overwritten by the patch step. -/
theorem spec_patch_defaults (data : List (String × String)) :
    (data.lookup "DOMAIN_CONTRIBUTION_AND_PROOF" = none →
      (specConfig data).lookup "DOMAIN_CONTRIBUTION_AND_PROOF" =
        some (SpecValue.domainType [0x09, 0x00, 0x00, 0x00])) ∧
    (data.lookup "DOMAIN_SYNC_COMMITTEE" = none →
      (specConfig data).lookup "DOMAIN_SYNC_COMMITTEE" =
        some (SpecValue.domainType [0x07, 0x00, 0x00, 0x00])) ∧
    (data.lookup "DOMAIN_SYNC_COMMITTEE_SELECTION_PROOF" = none →
      (specConfig data).lookup "DOMAIN_SYNC_COMMITTEE_SELECTION_PROOF" =
        some (SpecValue.domainType [0x08, 0x00, 0x00, 0x00])) ∧
    (data.lookup "SYNC_COMMITTEE_SUBNET_COUNT" = none →
      (specConfig data).lookup "SYNC_COMMITTEE_SUBNET_COUNT" = some (SpecValue.uint 4)) ∧
    (data.lookup "TARGET_AGGREGATORS_PER_SYNC_SUBCOMMITTEE" = none →
      (specConfig data).lookup "TARGET_AGGREGATORS_PER_SYNC_SUBCOMMITTEE" =
        some (SpecValue.uint 16)) ∧
    (∀ k v, data.lookup k = some v →
      (specConfig data).lookup k = some (decodeKV k v)) := by
  refine ⟨?_, ?_, ?_, ?_, ?_, ?_⟩
  · intro h
    have h0 : (decodeData data).lookup "DOMAIN_CONTRIBUTION_AND_PROOF" = none := by
      rw [lookup_decodeData, h]
      rfl
    unfold specConfig patchConfig
    rw [lookup_patchEntry_ne _ _ _ _ (by decide), lookup_patchEntry_ne _ _ _ _ (by decide),
      lookup_patchEntry_ne _ _ _ _ (by decide), lookup_patchEntry_ne _ _ _ _ (by decide)]
    exact lookup_patchEntry_self _ _ _ h0
  · intro h
    have h0 : (decodeData data).lookup "DOMAIN_SYNC_COMMITTEE" = none := by
      rw [lookup_decodeData, h]
      rfl
    have h1 : (patchEntry (decodeData data) "DOMAIN_CONTRIBUTION_AND_PROOF"
        (.domainType [0x09, 0x00, 0x00, 0x00])).lookup "DOMAIN_SYNC_COMMITTEE" = none := by
      rw [lookup_patchEntry_ne _ _ _ _ (by decide)]
      exact h0
    unfold specConfig patchConfig
    rw [lookup_patchEntry_ne _ _ _ _ (by decide), lookup_patchEntry_ne _ _ _ _ (by decide),
      lookup_patchEntry_ne _ _ _ _ (by decide)]
    exact lookup_patchEntry_self _ _ _ h1
  · intro h
    have h0 : (decodeData data).lookup "DOMAIN_SYNC_COMMITTEE_SELECTION_PROOF" = none := by
      rw [lookup_decodeData, h]
      rfl
    have h1 : (patchEntry (patchEntry (decodeData data) "DOMAIN_CONTRIBUTION_AND_PROOF"
        (.domainType [0x09, 0x00, 0x00, 0x00])) "DOMAIN_SYNC_COMMITTEE"
        (.domainType [0x07, 0x00, 0x00, 0x00])).lookup
        "DOMAIN_SYNC_COMMITTEE_SELECTION_PROOF" = none := by
      rw [lookup_patchEntry_ne _ _ _ _ (by decide), lookup_patchEntry_ne _ _ _ _ (by decide)]
      exact h0
    unfold specConfig patchConfig
    rw [lookup_patchEntry_ne _ _ _ _ (by decide), lookup_patchEntry_ne _ _ _ _ (by decide)]
    exact lookup_patchEntry_self _ _ _ h1
  · intro h
    have h0 : (decodeData data).lookup "SYNC_COMMITTEE_SUBNET_COUNT" = none := by
      rw [lookup_decodeData, h]
      rfl
    have h1 : (patchEntry (patchEntry (patchEntry (decodeData data)
        "DOMAIN_CONTRIBUTION_AND_PROOF" (.domainType [0x09, 0x00, 0x00, 0x00]))
        "DOMAIN_SYNC_COMMITTEE" (.domainType [0x07, 0x00, 0x00, 0x00]))
        "DOMAIN_SYNC_COMMITTEE_SELECTION_PROOF"
        (.domainType [0x08, 0x00, 0x00, 0x00])).lookup
        "SYNC_COMMITTEE_SUBNET_COUNT" = none := by
      rw [lookup_patchEntry_ne _ _ _ _ (by decide), lookup_patchEntry_ne _ _ _ _ (by decide),
        lookup_patchEntry_ne _ _ _ _ (by decide)]
      exact h0
    unfold specConfig patchConfig
    rw [lookup_patchEntry_ne _ _ _ _ (by decide)]
    exact lookup_patchEntry_self _ _ _ h1
  · intro h
    have h0 : (decodeData data).lookup "TARGET_AGGREGATORS_PER_SYNC_SUBCOMMITTEE" = none := by
      rw [lookup_decodeData, h]
      rfl
    have h1 : (patchEntry (patchEntry (patchEntry (patchEntry (decodeData data)
        "DOMAIN_CONTRIBUTION_AND_PROOF" (.domainType [0x09, 0x00, 0x00, 0x00]))
        "DOMAIN_SYNC_COMMITTEE" (.domainType [0x07, 0x00, 0x00, 0x00]))
        "DOMAIN_SYNC_COMMITTEE_SELECTION_PROOF" (.domainType [0x08, 0x00, 0x00, 0x00]))
        "SYNC_COMMITTEE_SUBNET_COUNT" (.uint 4)).lookup
        "TARGET_AGGREGATORS_PER_SYNC_SUBCOMMITTEE" = none := by
      rw [lookup_patchEntry_ne _ _ _ _ (by decide), lookup_patchEntry_ne _ _ _ _ (by decide),
        lookup_patchEntry_ne _ _ _ _ (by decide), lookup_patchEntry_ne _ _ _ _ (by decide)]
      exact h0
    unfold specConfig patchConfig
    exact lookup_patchEntry_self _ _ _ h1
  · intro k v h
    have h0 : (decodeData data).lookup k = some (decodeKV k v) := by
      rw [lookup_decodeData, h]
      rfl
    exact lookup_patchConfig_some _ _ _ h0

theorem spec_patch_defaults_witness :
    (specConfig []).lookup "SYNC_COMMITTEE_SUBNET_COUNT" = some (SpecValue.uint 4) ∧
    (specConfig [("SYNC_COMMITTEE_SUBNET_COUNT", "8")]).lookup "SYNC_COMMITTEE_SUBNET_COUNT" =
      some (decodeKV "SYNC_COMMITTEE_SUBNET_COUNT" "8") :=
  ⟨(spec_patch_defaults []).2.2.2.1 rfl,
    (spec_patch_defaults [("SYNC_COMMITTEE_SUBNET_COUNT", "8")]).2.2.2.2.2
      "SYNC_COMMITTEE_SUBNET_COUNT" "8" (by decide)⟩

/-- Claim C5: per-key decoding is total — every key present in the payload
appears in the decoded configuration mapped to exactly one typed value, and
a key whose value matches no earlier rule is stored as its raw string
rather than failing the whole decode. -/
theorem spec_decode_total (data : List (String × String)) (k v : String)
    (h : data.lookup k = some v) :
    (specConfig data).lookup k = some (decodeKV k v) ∧
    (noRuleMatches k v → decodeKV k v = SpecValue.str v) := by
  constructor
  · have h0 : (decodeData data).lookup k = some (decodeKV k v) := by
      rw [lookup_decodeData, h]
      rfl
    exact lookup_patchConfig_some _ _ _ h0
  · rintro ⟨h1, h2, h3, h4, h5, h6, h7⟩
    simp [decodeKV, h1, h2, h3, h4, h5, h6, h7]

theorem spec_decode_total_witness :
    (specConfig [("PRESET_BASE", "mainnet")]).lookup "PRESET_BASE" =
      some (decodeKV "PRESET_BASE" "mainnet") ∧
    (noRuleMatches "PRESET_BASE" "mainnet" →
      decodeKV "PRESET_BASE" "mainnet" = SpecValue.str "mainnet") :=
  spec_decode_total [("PRESET_BASE", "mainnet")] "PRESET_BASE" "mainnet" (by decide)

theorem Spec_of_cached (s : HTTPService) (c : List (String × SpecValue))
    (h : s.spec = some c) (f : FetchOutcome) : s.Spec f = (s, .ok c, false) := by
  unfold HTTPService.Spec
  rw [h]

theorem Spec_success_sets_cache (s s' : HTTPService) (f : FetchOutcome)
    (c : List (String × SpecValue)) (b : Bool) (h : s.Spec f = (s', .ok c, b)) :
    s'.spec = some c := by
  unfold HTTPService.Spec at h
  cases hs : s.spec with
  | some c0 =>
    rw [hs] at h
    simp only [Prod.mk.injEq] at h
    obtain ⟨h1, h2, -⟩ := h
    rw [← h1, hs, Except.ok.inj h2]
  | none =>
    rw [hs] at h
    cases f with
    | getError e => simp at h
    | nilBody => simp at h
    | decodeJSONError e => simp at h
    | ok data =>
      simp only [Prod.mk.injEq] at h
      obtain ⟨h1, h2, -⟩ := h
      rw [← h1]
      exact congrArg some (Except.ok.inj h2)

/-- Claim C1: once a call to `Spec` has succeeded and stored a configuration
value, every subsequent call returns that same value without performing any
new fetch or decode, and the cached value never transitions back to
unset. -/
theorem spec_cache_permanent (s s' : HTTPService) (f : FetchOutcome)
    (c : List (String × SpecValue)) (b : Bool) (h : s.Spec f = (s', .ok c, b))
    (fs : List FetchOutcome) :
    s'.spec = some c ∧
    s'.SpecCalls fs = List.replicate fs.length (.ok c, false) := by
  have hset : s'.spec = some c := Spec_success_sets_cache s s' f c b h
  refine ⟨hset, ?_⟩
  induction fs with
  | nil => rfl
  | cons f' fs' ih =>
    unfold HTTPService.SpecCalls
    rw [Spec_of_cached s' c hset f']
    rw [List.length_cons, List.replicate_succ]
    exact congrArg _ ih

theorem spec_cache_permanent_witness :
    (⟨some (specConfig [])⟩ : HTTPService).spec = some (specConfig []) ∧
    HTTPService.SpecCalls ⟨some (specConfig [])⟩ [FetchOutcome.nilBody] =
      List.replicate [FetchOutcome.nilBody].length (.ok (specConfig []), false) :=
  spec_cache_permanent ⟨none⟩ ⟨some (specConfig [])⟩ (FetchOutcome.ok [])
    (specConfig []) true rfl [FetchOutcome.nilBody]

/-- Claim C6: when the fetch or decode fails (request error, nil response
body, or JSON decode error), `Spec` returns that failure, the cache remains
unset (the state is unchanged), and any subsequent call re-attempts the
computation instead of returning a cached failure. -/
theorem spec_failure_not_cached (s : HTTPService) (f : FetchOutcome)
    (hs : s.spec = none) (hf : ∀ d, f ≠ FetchOutcome.ok d) :
    (∃ e, s.Spec f = (s, .error e, true)) ∧
    (∀ m, f = .getError m → s.Spec f = (s, .error (.requestFailed m), true)) ∧
    (f = .nilBody → s.Spec f = (s, .error .obtainFailed, true)) ∧
    (∀ m, f = .decodeJSONError m → s.Spec f = (s, .error (.parseFailed m), true)) ∧
    (∀ f', (s.Spec f').2.2 = true) := by
  have hstep : ∀ f', (s.Spec f').2.2 = true := by
    intro f'
    unfold HTTPService.Spec
    rw [hs]
    cases f' <;> rfl
  cases f with
  | getError e =>
    refine ⟨⟨.requestFailed e, ?_⟩, ?_, ?_, ?_, hstep⟩ <;>
      simp [HTTPService.Spec, hs]
  | nilBody =>
    refine ⟨⟨.obtainFailed, ?_⟩, ?_, ?_, ?_, hstep⟩ <;>
      simp [HTTPService.Spec, hs]
  | decodeJSONError e =>
    refine ⟨⟨.parseFailed e, ?_⟩, ?_, ?_, ?_, hstep⟩ <;>
      simp [HTTPService.Spec, hs]
  | ok data => exact absurd rfl (hf data)

theorem spec_failure_not_cached_witness :
    (∃ e, HTTPService.Spec ⟨none⟩ .nilBody = (⟨none⟩, .error e, true)) ∧
    (∀ m, FetchOutcome.nilBody = .getError m →
      HTTPService.Spec ⟨none⟩ .nilBody = (⟨none⟩, .error (.requestFailed m), true)) ∧
    (FetchOutcome.nilBody = .nilBody →
      HTTPService.Spec ⟨none⟩ .nilBody = (⟨none⟩, .error .obtainFailed, true)) ∧
    (∀ m, FetchOutcome.nilBody = .decodeJSONError m →
      HTTPService.Spec ⟨none⟩ .nilBody = (⟨none⟩, .error (.parseFailed m), true)) ∧
    (∀ f', (HTTPService.Spec ⟨none⟩ f').2.2 = true) :=
  spec_failure_not_cached ⟨none⟩ .nilBody rfl (fun _ h => FetchOutcome.noConfusion h)

/-- Claim C7 counterexample: a backend handle whose dynamic type does not
implement the fork-provider capability makes the operation closure panic via
the unchecked type assertion, instead of returning an error value. -/
theorem fork_operation_panics_on_missing_capability :
    forkOperation "head" ⟨none⟩ = GoOutcome.panicked := rfl

/-- Claim C7 (amended): for every backend handle that does implement the
fork-provider capability, the operation closure used by `Fork` never panics
— a backend-level failure is returned as an error value. A handle lacking
the capability instead panics on the unchecked type assertion. -/
theorem fork_operation_no_panic_with_capability (c : Client)
    (q : String → Except GoErr (Option ForkData)) (hq : c.forkQuery = some q)
    (stateID : String) :
    forkOperation stateID c ≠ GoOutcome.panicked ∧
    (∀ e, q stateID = .error e → forkOperation stateID c = GoOutcome.err e) := by
  constructor
  · simp only [forkOperation, hq]
    cases hr : q stateID <;> simp
  · intro e he
    simp only [forkOperation, hq, he]

theorem fork_operation_no_panic_with_capability_witness :
    forkOperation "head" ⟨some fun _ => .error (.msg "backend down")⟩ ≠
      GoOutcome.panicked ∧
    (∀ e, (fun _ : String =>
        (Except.error (GoErr.msg "backend down") : Except GoErr (Option ForkData))) "head" =
        .error e →
      forkOperation "head" ⟨some fun _ => .error (.msg "backend down")⟩ =
        GoOutcome.err e) :=
  fork_operation_no_panic_with_capability
    ⟨some fun _ => .error (.msg "backend down")⟩ _ rfl "head"

/-- Claim C8: when the dispatch call underlying `Fork` completes without
error but yields an explicitly empty result, `Fork` returns success with a
nil fork value — never an error. -/
theorem fork_empty_result_success (s : MultiService) (stateID : String)
    (h : s.doCall (forkOperation stateID) = GoOutcome.ok none) :
    s.Fork stateID = GoOutcome.ok none ∧ ∀ e, s.Fork stateID ≠ GoOutcome.err e := by
  unfold MultiService.Fork
  rw [h]
  exact ⟨rfl, fun e he => GoOutcome.noConfusion he⟩

theorem fork_empty_result_success_witness :
    MultiService.Fork ⟨.passThrough, [⟨some fun _ => .ok none⟩]⟩ "head" =
      GoOutcome.ok none ∧
    ∀ e, MultiService.Fork ⟨.passThrough, [⟨some fun _ => .ok none⟩]⟩ "head" ≠
      GoOutcome.err e :=
  fork_empty_result_success ⟨.passThrough, [⟨some fun _ => .ok none⟩]⟩ "head" rfl

/-- Claim C9: under single-backend PassThrough dispatch against a handle
implementing the capability, `Fork` returns the backend operation's outcome
unchanged — a backend error verbatim, a fork value (nil or not) with no
error. -/
theorem fork_passthrough_verbatim (c : Client)
    (q : String → Except GoErr (Option ForkData)) (hq : c.forkQuery = some q)
    (stateID : String) :
    (∀ e, q stateID = .error e →
      MultiService.Fork ⟨.passThrough, [c]⟩ stateID = GoOutcome.err e) ∧
    (∀ r, q stateID = .ok r →
      MultiService.Fork ⟨.passThrough, [c]⟩ stateID = GoOutcome.ok r) := by
  constructor
  · intro e he
    simp only [MultiService.Fork, MultiService.doCall, forkOperation, hq, he]
  · intro r hr
    simp only [MultiService.Fork, MultiService.doCall, forkOperation, hq, hr]
    cases r <;> rfl

theorem fork_passthrough_verbatim_witness :
    (∀ e, (fun _ : String =>
        (Except.ok (some ⟨[1, 0, 0, 0], [2, 0, 0, 0], 7⟩) : Except GoErr (Option ForkData)))
        "head" = .error e →
      MultiService.Fork
        ⟨.passThrough, [⟨some fun _ => .ok (some ⟨[1, 0, 0, 0], [2, 0, 0, 0], 7⟩)⟩]⟩
        "head" = GoOutcome.err e) ∧
    (∀ r, (fun _ : String =>
        (Except.ok (some ⟨[1, 0, 0, 0], [2, 0, 0, 0], 7⟩) : Except GoErr (Option ForkData)))
        "head" = .ok r →
      MultiService.Fork
        ⟨.passThrough, [⟨some fun _ => .ok (some ⟨[1, 0, 0, 0], [2, 0, 0, 0], 7⟩)⟩]⟩
        "head" = GoOutcome.ok r) :=
  fork_passthrough_verbatim
    ⟨some fun _ => .ok (some ⟨[1, 0, 0, 0], [2, 0, 0, 0], 7⟩)⟩ _ rfl "head"
